import Mathlib

/-!
Verification of extract-buildinfo.c (dsimunic/buildinfo).

The program is embedded at the byte level: a file is a `List Nat` of byte
values (each byte is reduced mod 256 wherever the C code interprets it).
`fread`/`fseek` pairs are modelled by `freadCount`/`readSlice`, which follow
the C `fread` contract: it returns the number of COMPLETE items read, and
returns 0 whenever the item size is 0.  `printf` of a C string is modelled by
`cstr` (the bytes before the first NUL).  An out-of-bounds heap access, which
C leaves undefined, is a distinguished `Outcome.ub` result.
-/

set_option maxRecDepth 100000

namespace BuildInfo

/-- Equality of `Except Unit Bool` results is decidable. -/
instance : DecidableEq (Except Unit Bool) := fun a b =>
  match a, b with
  | .ok x, .ok y =>
    if h : x = y then isTrue (by rw [h]) else isFalse (by intro hc; cases hc; exact h rfl)
  | .error x, .error y =>
    isTrue (by cases x; cases y; rfl)
  | .ok _, .error _ => isFalse (by intro hc; cases hc)
  | .error _, .ok _ => isFalse (by intro hc; cases hc)

/-- Little-endian value of a byte list; each entry is reduced mod 256, as the
bytes of a file are. -/
def le : List Nat → Nat
  | [] => 0
  | b :: bs => b % 256 + 256 * le bs

/-- A 2-byte little-endian field starting at the head of `bs`. -/
def u16le (bs : List Nat) : Nat := le (bs.take 2)

/-- A 4-byte little-endian field starting at the head of `bs`. -/
def u32le (bs : List Nat) : Nat := le (bs.take 4)

/-- An 8-byte little-endian field starting at the head of `bs`. -/
def u64le (bs : List Nat) : Nat := le (bs.take 8)

/-- Bytes available in `file` from absolute offset `off` on. -/
def avail (file : List Nat) (off : Nat) : Nat := file.length - off

/-- Number of complete items returned by `fread(buf, size, nmemb, f)` after
`fseek(f, off, SEEK_SET)`: 0 when `size = 0` (C99 7.19.8.1), otherwise the
number of whole items available, capped at `nmemb`. -/
def freadCount (file : List Nat) (off size nmemb : Nat) : Nat :=
  if size = 0 then 0 else min nmemb (avail file off / size)

/-- The `len` bytes of `file` starting at absolute offset `off` (shorter when
the file ends first; call sites gate on `freadCount`). -/
def readSlice (file : List Nat) (off len : Nat) : List Nat :=
  (file.drop off).take len

/-- The bytes `printf` writes for a buffer holding `bs` followed by a NUL
terminator: everything before the first NUL byte. -/
def cstr (bs : List Nat) : List Nat := bs.takeWhile (fun b => b % 256 ≠ 0)

/-- Observable result of one extractor or program run: bytes on stdout and
exit 0, a diagnostic on stderr and exit 1, or undefined behaviour (an
out-of-bounds heap access in the C code). -/
inductive Outcome where
  | ok (stdout : List Nat)
  | err (msg : String)
  | ub (msg : String)
deriving DecidableEq

/-- Process exit status of an outcome; `none` for undefined behaviour. -/
def exitCode : Outcome → Option Nat
  | .ok _ => some 0
  | .err _ => some 1
  | .ub _ => none

/-- The bytes of the string literal ".buildinfo" (terminator excluded). -/
def litElf : List Nat :=
  [0x2e, 0x62, 0x75, 0x69, 0x6c, 0x64, 0x69, 0x6e, 0x66, 0x6f]

/-- The bytes of the string literal "__buildinfo" (terminator excluded). -/
def litMacho : List Nat :=
  [0x5f, 0x5f, 0x62, 0x75, 0x69, 0x6c, 0x64, 0x69, 0x6e, 0x66, 0x6f]

/-- `strcmp(blob + off, lit) == 0`, where `lit` is a NUL-terminated literal
given here without its terminator.  `strcmp` walks both strings until a
mismatch or a terminator; against a literal of length n it inspects at most
the bytes `blob[off] .. blob[off + n]`.  Reading at or past `blob.length` is
an out-of-bounds heap access: `Except.error ()`. -/
def cstrEqLit (blob : List Nat) (off : Nat) : List Nat → Except Unit Bool
  | [] =>
    match blob[off]? with
    | none => .error ()
    | some a => .ok (decide (a % 256 = 0))
  | c :: rest =>
    match blob[off]? with
    | none => .error ()
    | some a => if a % 256 = c then cstrEqLit blob (off + 1) rest else .ok false

/-! ## ELF64 extractor (`extract_elf_buildinfo`, non-Apple build) -/

/-- The fields of `Elf64_Shdr` the program uses: `sh_name`, `sh_offset`,
`sh_size`. -/
structure Shdr where
  name : Nat
  offset : Nat
  size : Nat
deriving DecidableEq

/-- Parse one 64-byte `Elf64_Shdr` record: `sh_name` is a u32 at offset 0,
`sh_offset` a u64 at offset 24, `sh_size` a u64 at offset 32. -/
def parseShdr (bs : List Nat) : Shdr :=
  { name := u32le bs, offset := u64le (bs.drop 24), size := u64le (bs.drop 32) }

/-- The scan loop of `extract_elf_buildinfo` (lines 71-99): for each section
header in table order, resolve `strtab + sh_name` and compare with
".buildinfo"; on the first match read `sh_size` bytes at `sh_offset` and
print them; report a missing section after the last header. -/
def elfScan (file : List Nat) (strtab : List Nat) : List Shdr → Outcome
  | [] => .err "No .buildinfo section found in binary"
  | s :: rest =>
    match cstrEqLit strtab s.name litElf with
    | .error _ => .ub "section name offset out of string-table bounds"
    | .ok true =>
      if freadCount file s.offset s.size 1 ≠ 1 then
        .err "Failed to read .buildinfo section"
      else .ok (cstr (readSlice file s.offset s.size))
    | .ok false => elfScan file strtab rest

/-- `extract_elf_buildinfo` on a non-Apple build (lines 24-104): read the
64-byte `Elf64_Ehdr`, check the 4 magic bytes, read `e_shnum` 64-byte section
headers at `e_shoff`, take the string-table header at index `e_shstrndx`
WITHOUT a bounds check (an out-of-range index reads past the malloc block:
undefined behaviour), read the string-table blob, and scan.  Relevant header
fields: `e_shoff` u64 at 40, `e_shnum` u16 at 60, `e_shstrndx` u16 at 62. -/
def elfExtract (file : List Nat) : Outcome :=
  if freadCount file 0 64 1 ≠ 1 then .err "Failed to read ELF header"
  else
    let hdr := readSlice file 0 64
    if u32le hdr ≠ 0x464c457f then .err "Not a valid ELF file"
    else
      let shoff := u64le (hdr.drop 40)
      let shnum := u16le (hdr.drop 60)
      let shstrndx := u16le (hdr.drop 62)
      if freadCount file shoff 64 shnum ≠ shnum then
        .err "Failed to read section headers"
      else
        let sections := (List.range shnum).map
          (fun i => parseShdr (readSlice file (shoff + 64 * i) 64))
        if hlt : shstrndx < sections.length then
          let shstrtab := sections.get ⟨shstrndx, hlt⟩
          if freadCount file shstrtab.offset shstrtab.size 1 ≠ 1 then
            .err "Failed to read string table"
          else elfScan file (readSlice file shstrtab.offset shstrtab.size) sections
        else .ub "e_shstrndx out of bounds of section-header table"

/-! ## Mach-O 64 extractor (`extract_macho_buildinfo`, Apple build) -/

/-- `strcmp(sect.sectname, "__buildinfo") == 0` where `sect` holds the bytes
of one 80-byte `section_64` record (`sectname` is its first 16 bytes). -/
def machoNameMatches (sect : List Nat) : Bool :=
  match cstrEqLit sect 0 litMacho with
  | .ok b => b
  | .error _ => false

/-- On a section-name match (lines 155-175): `malloc(sect.size + 1)`, seek to
`sect.offset` (u32 at 48), `fread` `sect.size` (u64 at 40) bytes, NUL-
terminate, print.  A size of 0 makes `fread` return 0, taking the error
branch. -/
def machoPayload (file : List Nat) (sect : List Nat) : Outcome :=
  let size := u64le (sect.drop 40)
  let off := u32le (sect.drop 48)
  if freadCount file off size 1 ≠ 1 then .err "Failed to read __buildinfo section"
  else .ok (cstr (readSlice file off size))

/-- Result of the inner section loop (lines 147-176). -/
inductive SectScan where
  | found (o : Outcome)
  | readFail
  | noMatch
deriving DecidableEq

/-- The inner section loop of `extract_macho_buildinfo` (lines 147-176)
together with the number of `fread` calls it makes: read `section_64` records
(80 bytes each) sequentially from `spos`, return on the first name match. -/
def machoSectionsT (file : List Nat) : Nat → Nat → SectScan × Nat
  | 0, _ => (.noMatch, 0)
  | j + 1, spos =>
    if freadCount file spos 80 1 ≠ 1 then (.readFail, 1)
    else
      let sect := readSlice file spos 80
      if machoNameMatches sect then (.found (machoPayload file sect), 2)
      else
        let r := machoSectionsT file j (spos + 80)
        (r.1, r.2 + 1)

/-- The load-command loop of `extract_macho_buildinfo` (lines 128-180),
returning the outcome, the number of iterations executed, and the number of
`fread` calls.  Each iteration: record `pos = ftell(f)`, read the 8-byte
`load_command` (`cmd` u32 at 0, `cmdsize` u32 at 4); for `LC_SEGMENT_64`
(0x19) re-read from `pos` the 72-byte `segment_command_64` (`nsects` u32 at
64) and run the section loop; afterwards seek to `pos + cmdsize`. -/
def machoLoopT (file : List Nat) : Nat → Nat → Outcome × Nat × Nat
  | 0, _ => (.err "No __buildinfo section found in binary", 0, 0)
  | n + 1, pos =>
    if freadCount file pos 8 1 ≠ 1 then (.err "Failed to read load command", 1, 1)
    else
      let lc := readSlice file pos 8
      let cmdsize := u32le (lc.drop 4)
      if u32le lc = 0x19 then
        if freadCount file pos 72 1 ≠ 1 then (.err "Failed to read segment command", 1, 2)
        else
          let seg := readSlice file pos 72
          let s := machoSectionsT file (u32le (seg.drop 64)) (pos + 72)
          match s.1 with
          | .found o => (o, 1, 2 + s.2)
          | .readFail => (.err "Failed to read section", 1, 2 + s.2)
          | .noMatch =>
            let r := machoLoopT file n (pos + cmdsize)
            (r.1, r.2.1 + 1, r.2.2 + 2 + s.2)
      else
        let r := machoLoopT file n (pos + cmdsize)
        (r.1, r.2.1 + 1, r.2.2 + 1)

/-- Outcome of the load-command walk started with `n` commands left at file
position `pos`. -/
def machoLoop (file : List Nat) (n pos : Nat) : Outcome := (machoLoopT file n pos).1

/-- Number of load-command iterations the walk executes. -/
def machoLoopSteps (file : List Nat) (n pos : Nat) : Nat := (machoLoopT file n pos).2.1

/-- Number of `fread` calls the walk makes. -/
def machoLoopReads (file : List Nat) (n pos : Nat) : Nat := (machoLoopT file n pos).2.2

def MH_MAGIC_64 : Nat := 0xfeedfacf
def MH_CIGAM_64 : Nat := 0xcffaedfe

/-- `extract_macho_buildinfo` on an Apple build (lines 112-183): read the
32-byte `mach_header_64` (`magic` u32 at 0, `ncmds` u32 at 16), accept either
64-bit magic, then walk `ncmds` load commands from position 32.  Every field
is read in native (little-endian) order; nothing is byte-swapped for
`MH_CIGAM_64`. -/
def machoExtract (file : List Nat) : Outcome :=
  if freadCount file 0 32 1 ≠ 1 then .err "Failed to read Mach-O header"
  else
    let hdr := readSlice file 0 32
    if u32le hdr ≠ MH_MAGIC_64 ∧ u32le hdr ≠ MH_CIGAM_64 then
      .err "Not a valid 64-bit Mach-O file"
    else machoLoop file (u32le (hdr.drop 16)) 32

/-! ## Per-build wrappers and `main` -/

/-- `extract_elf_buildinfo` as compiled: on an Apple build the whole body is
preprocessed away and it unconditionally fails (lines 105-108). -/
def extractElfBuildinfo (apple : Bool) (file : List Nat) : Outcome :=
  if apple then .err "ELF format not supported on this platform" else elfExtract file

/-- `extract_macho_buildinfo` as compiled: on a non-Apple build it
unconditionally fails (lines 184-187). -/
def extractMachoBuildinfo (apple : Bool) (file : List Nat) : Outcome :=
  if apple then machoExtract file else .err "Mach-O format not supported on this platform"

/-- Which branch of `main` (lines 204-229) handles the file. -/
inductive Dispatch where
  | machoBranch
  | elfBranch
  | unknownBranch
  | magicReadFail
deriving DecidableEq

def ELF_MAGIC_LE : Nat := 0x464c457f

/-- The dispatch in `main`: read a native u32 from the first 4 bytes; an
Apple build tests only the two Mach-O magics, any other build tests only the
ELF magic; anything else is the unknown-format branch. -/
def mainDispatch (apple : Bool) (file : List Nat) : Dispatch :=
  if freadCount file 0 4 1 ≠ 1 then .magicReadFail
  else
    let magic := u32le (readSlice file 0 4)
    if apple then
      if magic = MH_MAGIC_64 ∨ magic = MH_CIGAM_64 then .machoBranch else .unknownBranch
    else
      if magic = ELF_MAGIC_LE then .elfBranch else .unknownBranch

/-- `main` on a file that was opened successfully, as a function of the file
bytes (the extractors rewind to offset 0 themselves). -/
def mainRun (apple : Bool) (file : List Nat) : Outcome :=
  match mainDispatch apple file with
  | .machoBranch => extractMachoBuildinfo apple file
  | .elfBranch => extractElfBuildinfo apple file
  | .unknownBranch => .err "Unknown or unsupported binary format"
  | .magicReadFail => .err "Failed to read file magic"

/-- Two runs of the program on the same file. -/
def runTwice (apple : Bool) (file : List Nat) : Outcome × Outcome :=
  (mainRun apple file, mainRun apple file)


/-! ## Concrete input files -/

/-- NUL byte, the ".buildinfo" bytes, NUL: a 12-byte string-table blob in
which offset 1 names ".buildinfo". -/
def strtabBlob : List Nat := 0 :: litElf ++ [0]

/-- ELF header: `e_shoff` 64, `e_shnum` 2, `e_shstrndx` 0. -/
def elfHdr2 : List Nat :=
  [0x7f, 0x45, 0x4c, 0x46] ++ List.replicate 36 0 ++ [64, 0, 0, 0, 0, 0, 0, 0] ++
    List.replicate 12 0 ++ [2, 0] ++ [0, 0]

/-- Section header 0: the string table, at offset 192, size 12. -/
def elfShdrStr : List Nat :=
  List.replicate 24 0 ++ [192, 0, 0, 0, 0, 0, 0, 0] ++ [12, 0, 0, 0, 0, 0, 0, 0] ++
    List.replicate 24 0

/-- Section header 1: name offset 1 (".buildinfo"), offset 204, size 4. -/
def elfShdrBi : List Nat :=
  [1, 0, 0, 0] ++ List.replicate 20 0 ++ [204, 0, 0, 0, 0, 0, 0, 0] ++
    [4, 0, 0, 0, 0, 0, 0, 0] ++ List.replicate 24 0

/-- A valid ELF64 image whose ".buildinfo" section holds the bytes "abcd". -/
def goodElf : List Nat :=
  elfHdr2 ++ elfShdrStr ++ elfShdrBi ++ strtabBlob ++ [0x61, 0x62, 0x63, 0x64]

/-- Section header 1 variant: ".buildinfo" with size 0. -/
def elfShdrBi0 : List Nat :=
  [1, 0, 0, 0] ++ List.replicate 20 0 ++ [204, 0, 0, 0, 0, 0, 0, 0] ++
    List.replicate 8 0 ++ List.replicate 24 0

/-- A valid ELF64 image whose ".buildinfo" section has size 0. -/
def elfZero : List Nat := elfHdr2 ++ elfShdrStr ++ elfShdrBi0 ++ strtabBlob

/-- ELF header with `e_shnum` 1 but `e_shstrndx` 1, followed by one (zeroed)
section header: the string-table index is out of range. -/
def elfBadStrndx : List Nat :=
  ([0x7f, 0x45, 0x4c, 0x46] ++ List.replicate 36 0 ++ [64, 0, 0, 0, 0, 0, 0, 0] ++
    List.replicate 12 0 ++ [1, 0] ++ [1, 0]) ++ List.replicate 64 0

/-- Section header 0 variant: string table at offset 192 of size 1. -/
def elfShdrStr1 : List Nat :=
  List.replicate 24 0 ++ [192, 0, 0, 0, 0, 0, 0, 0] ++ [1, 0, 0, 0, 0, 0, 0, 0] ++
    List.replicate 24 0

/-- A valid-header ELF64 image whose second section header carries name
offset 100 into a 1-byte string table. -/
def elfBadName : List Nat :=
  elfHdr2 ++ elfShdrStr1 ++ ([100, 0, 0, 0] ++ List.replicate 60 0) ++ [0]

/-- ELF header: `e_shoff` 64, `e_shnum` 3, `e_shstrndx` 0. -/
def elfHdr3 : List Nat :=
  [0x7f, 0x45, 0x4c, 0x46] ++ List.replicate 36 0 ++ [64, 0, 0, 0, 0, 0, 0, 0] ++
    List.replicate 12 0 ++ [3, 0] ++ [0, 0]

/-- String-table section header for the 3-section image: offset 256, size 12. -/
def elfShdrStrD : List Nat :=
  List.replicate 24 0 ++ [0, 1, 0, 0, 0, 0, 0, 0] ++ [12, 0, 0, 0, 0, 0, 0, 0] ++
    List.replicate 24 0

/-- First ".buildinfo" header of the duplicate image: offset 268, size 4. -/
def elfShdrBiD1 : List Nat :=
  [1, 0, 0, 0] ++ List.replicate 20 0 ++ [0x0c, 0x01, 0, 0, 0, 0, 0, 0] ++
    [4, 0, 0, 0, 0, 0, 0, 0] ++ List.replicate 24 0

/-- Second ".buildinfo" header of the duplicate image: offset 272, size 4. -/
def elfShdrBiD2 : List Nat :=
  [1, 0, 0, 0] ++ List.replicate 20 0 ++ [0x10, 0x01, 0, 0, 0, 0, 0, 0] ++
    [4, 0, 0, 0, 0, 0, 0, 0] ++ List.replicate 24 0

/-- A valid ELF64 image with TWO sections named ".buildinfo": the first holds
"abcd", the second "efgh". -/
def dupElf : List Nat :=
  elfHdr3 ++ elfShdrStrD ++ elfShdrBiD1 ++ elfShdrBiD2 ++ strtabBlob ++
    [0x61, 0x62, 0x63, 0x64] ++ [0x65, 0x66, 0x67, 0x68]

/-- Native-order `mach_header_64`: magic `MH_MAGIC_64`, `ncmds` 1. -/
def machoHdr1 : List Nat :=
  [0xcf, 0xfa, 0xed, 0xfe] ++ List.replicate 12 0 ++ [1, 0, 0, 0] ++ List.replicate 12 0

/-- Native-order `segment_command_64`: `cmd` 0x19, `cmdsize` 152, `nsects` 1. -/
def segCmd1 : List Nat :=
  [0x19, 0, 0, 0] ++ [152, 0, 0, 0] ++ List.replicate 56 0 ++ [1, 0, 0, 0] ++ [0, 0, 0, 0]

/-- Native-order `section_64` named "__buildinfo": size 4, file offset 184. -/
def sectRec184 : List Nat :=
  litMacho ++ List.replicate 5 0 ++ List.replicate 16 0 ++ List.replicate 8 0 ++
    [4, 0, 0, 0, 0, 0, 0, 0] ++ [184, 0, 0, 0] ++ List.replicate 28 0

/-- A valid native-order Mach-O 64 image whose "__buildinfo" section holds
the bytes "abcd" at offset 184. -/
def goodMacho : List Nat := machoHdr1 ++ segCmd1 ++ sectRec184 ++ [0x61, 0x62, 0x63, 0x64]

/-- `section_64` named "__buildinfo" with size 0. -/
def sectRecZ : List Nat :=
  litMacho ++ List.replicate 5 0 ++ List.replicate 16 0 ++ List.replicate 8 0 ++
    List.replicate 8 0 ++ [184, 0, 0, 0] ++ List.replicate 28 0

/-- A valid Mach-O 64 image whose "__buildinfo" section has size 0. -/
def machoZero : List Nat := machoHdr1 ++ segCmd1 ++ sectRecZ

/-- `goodMacho` with every multi-byte field byte-swapped: the big-endian
encoding of the same object, whose magic field reads back as `MH_CIGAM_64`
on a little-endian host. -/
def machoSwapped : List Nat :=
  ([0xfe, 0xed, 0xfa, 0xcf] ++ List.replicate 12 0 ++ [0, 0, 0, 1] ++ List.replicate 12 0) ++
    ([0, 0, 0, 0x19] ++ [0, 0, 0, 152] ++ List.replicate 56 0 ++ [0, 0, 0, 1] ++ [0, 0, 0, 0]) ++
    (litMacho ++ List.replicate 5 0 ++ List.replicate 16 0 ++ List.replicate 8 0 ++
      [0, 0, 0, 0, 0, 0, 0, 4] ++ [0, 0, 0, 184] ++ List.replicate 28 0) ++
    [0x61, 0x62, 0x63, 0x64]

/-- A Mach-O 64 image declaring `ncmds` 5 whose single load command has
`cmd` 0 and `cmdsize` 0: the cursor never advances. -/
def machoCmdZero : List Nat :=
  ([0xcf, 0xfa, 0xed, 0xfe] ++ List.replicate 12 0 ++ [5, 0, 0, 0] ++ List.replicate 12 0) ++
    List.replicate 8 0

/-- First "__buildinfo" section of the duplicate Mach-O image: offset 336. -/
def sectRec336 : List Nat :=
  litMacho ++ List.replicate 5 0 ++ List.replicate 16 0 ++ List.replicate 8 0 ++
    [4, 0, 0, 0, 0, 0, 0, 0] ++ [0x50, 0x01, 0, 0] ++ List.replicate 28 0

/-- Second "__buildinfo" section of the duplicate Mach-O image: offset 340. -/
def sectRec340 : List Nat :=
  litMacho ++ List.replicate 5 0 ++ List.replicate 16 0 ++ List.replicate 8 0 ++
    [4, 0, 0, 0, 0, 0, 0, 0] ++ [0x54, 0x01, 0, 0] ++ List.replicate 28 0

/-- A valid Mach-O 64 image with TWO segments each holding a "__buildinfo"
section: the first holds "abcd", the second "efgh". -/
def dupMacho : List Nat :=
  ([0xcf, 0xfa, 0xed, 0xfe] ++ List.replicate 12 0 ++ [2, 0, 0, 0] ++ List.replicate 12 0) ++
    segCmd1 ++ sectRec336 ++ segCmd1 ++ sectRec340 ++
    [0x61, 0x62, 0x63, 0x64] ++ [0x65, 0x66, 0x67, 0x68]

/-! ## Helper lemmas -/

/-- `cstrEqLit` only inspects the bytes at offsets `off .. off + lit.length`:
two blobs that agree there give the same comparison result. -/
theorem cstrEqLit_congr (lit : List Nat) :
    ∀ (b1 b2 : List Nat) (off : Nat),
      (∀ k, k ≤ lit.length → b1[off + k]? = b2[off + k]?) →
      cstrEqLit b1 off lit = cstrEqLit b2 off lit := by
  induction lit with
  | nil =>
    intro b1 b2 off h
    have h0 : b1[off]? = b2[off]? := by simpa using h 0 (Nat.le_refl 0)
    simp only [cstrEqLit, h0]
  | cons c rest ih =>
    intro b1 b2 off h
    have h0 : b1[off]? = b2[off]? := by simpa using h 0 (Nat.zero_le _)
    have hrec := ih b1 b2 (off + 1) (fun k hk => by
      have hh := h (k + 1) (by simpa using Nat.succ_le_succ hk)
      have : off + (k + 1) = off + 1 + k := by omega
      rwa [this] at hh)
    simp only [cstrEqLit, h0, hrec]

/-- A successful `strcmp` match against a literal of length n means the blob
carries a NUL byte at offset `off + n`. -/
theorem cstrEqLit_ok_true (lit : List Nat) :
    ∀ (blob : List Nat) (off : Nat), cstrEqLit blob off lit = .ok true →
      ∃ a, blob[off + lit.length]? = some a ∧ a % 256 = 0 := by
  induction lit with
  | nil =>
    intro blob off h
    cases hb : blob[off]? with
    | none => simp [cstrEqLit, hb] at h
    | some a =>
      simp only [cstrEqLit, hb] at h
      simp at h
      exact ⟨a, by simpa using hb, h⟩
  | cons c rest ih =>
    intro blob off h
    cases hb : blob[off]? with
    | none => simp [cstrEqLit, hb] at h
    | some a =>
      simp only [cstrEqLit, hb] at h
      by_cases hac : a % 256 = c
      · rw [if_pos hac] at h
        obtain ⟨z, hz, hz0⟩ := ih blob (off + 1) h
        refine ⟨z, ?_, hz0⟩
        have heq : off + 1 + rest.length = off + (c :: rest).length := by
          simp [List.length_cons]; omega
        rwa [heq] at hz
      · rw [if_neg hac] at h
        simp at h

/-- The little-endian value of a byte list is below `256 ^ length`. -/
theorem le_lt (bs : List Nat) : le bs < 256 ^ bs.length := by
  induction bs with
  | nil => simp [le]
  | cons b bs ih =>
    simp only [le, List.length_cons]
    have hb : b % 256 < 256 := Nat.mod_lt _ (by norm_num)
    have h2 : 256 * le bs ≤ 256 * (256 ^ bs.length - 1) :=
      Nat.mul_le_mul_left _ (by omega)
    have h3 : 256 ^ (bs.length + 1) = 256 ^ bs.length * 256 := pow_succ _ _
    have h4 : 1 ≤ 256 ^ bs.length := Nat.one_le_pow _ _ (by norm_num)
    omega

/-- A 4-byte little-endian field is below `2 ^ 32`. -/
theorem u32le_lt (bs : List Nat) : u32le bs < 2 ^ 32 := by
  have h1 := le_lt (bs.take 4)
  have h2 : (bs.take 4).length ≤ 4 := by
    simp [List.length_take]
  have h3 : (256 : Nat) ^ (bs.take 4).length ≤ 256 ^ 4 :=
    Nat.pow_le_pow_right (by norm_num) h2
  have h4 : (256 : Nat) ^ 4 = 2 ^ 32 := by norm_num
  unfold u32le
  omega

/-- The inner section loop makes at most `j + 1` `fread` calls when asked to
scan `j` records. -/
theorem machoSectionsT_reads_le (file : List Nat) :
    ∀ j spos, (machoSectionsT file j spos).2 ≤ j + 1 := by
  intro j
  induction j with
  | zero => intro spos; simp [machoSectionsT]
  | succ j ih =>
    intro spos
    simp only [machoSectionsT]
    split
    · simp
    · split
      · simp
      · have := ih (spos + 80)
        simp only []
        omega

/-- The load-command walk executes at most `n` iterations when started with
`n` commands left. -/
theorem machoLoopT_steps_le (file : List Nat) :
    ∀ n pos, (machoLoopT file n pos).2.1 ≤ n := by
  intro n
  induction n with
  | zero => intro pos; simp [machoLoopT]
  | succ n ih =>
    intro pos
    simp only [machoLoopT]
    split
    · simp
    · split
      · split
        · simp
        · split
          · simp
          · simp
          · have := ih (pos + u32le ((readSlice file pos 8).drop 4))
            simp
            omega
      · have := ih (pos + u32le ((readSlice file pos 8).drop 4))
        simp
        omega

/-- The load-command walk makes at most `n * (2 ^ 32 + 2)` `fread` calls:
each iteration reads one load command, at most one segment command, at most
`nsects < 2 ^ 32` section records and at most one payload. -/
theorem machoLoopT_reads_le (file : List Nat) :
    ∀ n pos, (machoLoopT file n pos).2.2 ≤ n * (2 ^ 32 + 2) := by
  intro n
  induction n with
  | zero => intro pos; simp [machoLoopT]
  | succ n ih =>
    intro pos
    have hmul : 2 ^ 32 + 2 ≤ (n + 1) * (2 ^ 32 + 2) :=
      Nat.le_mul_of_pos_left _ (Nat.succ_pos n)
    have hdist : (n + 1) * (2 ^ 32 + 2) = n * (2 ^ 32 + 2) + (2 ^ 32 + 2) := by
      ring
    simp only [machoLoopT]
    split
    · simp; omega
    · split
      · split
        · simp; omega
        · have hs := machoSectionsT_reads_le file
            (u32le ((readSlice file pos 72).drop 64)) (pos + 72)
          have hn := u32le_lt ((readSlice file pos 72).drop 64)
          split
          · simp
            omega
          · simp
            omega
          · have hr := ih (pos + u32le ((readSlice file pos 8).drop 4))
            simp
            omega
      · have hr := ih (pos + u32le ((readSlice file pos 8).drop 4))
        simp
        omega

/-- The ELF scan returns the payload of the first header whose name matches,
whatever follows it in the table. -/
theorem elfScan_first_match (file strtab : List Nat) :
    ∀ (pre : List Shdr) (s : Shdr) (rest : List Shdr),
      (∀ p ∈ pre, cstrEqLit strtab p.name litElf = .ok false) →
      cstrEqLit strtab s.name litElf = .ok true →
      elfScan file strtab (pre ++ s :: rest) =
        if freadCount file s.offset s.size 1 ≠ 1 then
          Outcome.err "Failed to read .buildinfo section"
        else Outcome.ok (cstr (readSlice file s.offset s.size)) := by
  intro pre
  induction pre with
  | nil =>
    intro s rest _ hs
    simp only [List.nil_append, elfScan, hs]
  | cons p pre ih =>
    intro s rest hpre hs
    have hp := hpre p (List.mem_cons_self _ _)
    simp only [List.cons_append, elfScan, hp]
    exact ih s rest (fun q hq => hpre q (List.mem_cons_of_mem _ hq)) hs

/-- The Mach-O inner section loop returns the payload of the first record
whose 16-byte name field matches, independently of how many records are
declared after it. -/
theorem machoSectionsT_first_match (file : List Nat) :
    ∀ (k n spos : Nat), k < n →
      (∀ i < k, freadCount file (spos + 80 * i) 80 1 = 1 ∧
          machoNameMatches (readSlice file (spos + 80 * i) 80) = false) →
      freadCount file (spos + 80 * k) 80 1 = 1 →
      machoNameMatches (readSlice file (spos + 80 * k) 80) = true →
      (machoSectionsT file n spos).1 =
        .found (machoPayload file (readSlice file (spos + 80 * k) 80)) := by
  intro k
  induction k with
  | zero =>
    intro n spos hn hpre hread hmatch
    obtain ⟨m, rfl⟩ : ∃ m, n = m + 1 := ⟨n - 1, by omega⟩
    simp only [Nat.mul_zero, Nat.add_zero] at hread hmatch
    simp only [machoSectionsT, hread, hmatch]
    simp [Nat.mul_zero, Nat.add_zero]
  | succ k ih =>
    intro n spos hn hpre hread hmatch
    obtain ⟨m, rfl⟩ : ∃ m, n = m + 1 := ⟨n - 1, by omega⟩
    have h0 := hpre 0 (Nat.succ_pos k)
    simp only [Nat.mul_zero, Nat.add_zero] at h0
    have hshift : spos + 80 * (k + 1) = spos + 80 + 80 * k := by ring
    rw [hshift] at hread hmatch
    have hrec := ih m (spos + 80) (by omega)
      (fun i hi => by
        have hh := hpre (i + 1) (by omega)
        have : spos + 80 * (i + 1) = spos + 80 + 80 * i := by ring
        rwa [this] at hh)
      hread hmatch
    rw [hshift]
    simp only [machoSectionsT, h0.1, h0.2]
    simpa using hrec

/-- When the current load command is a 64-bit segment whose section scan
finds a match, the walk returns that result at once: the remaining command
count `n` plays no part. -/
theorem machoLoopT_found (file : List Nat) (n pos : Nat) (o : Outcome)
    (h1 : freadCount file pos 8 1 = 1)
    (h2 : u32le (readSlice file pos 8) = 0x19)
    (h3 : freadCount file pos 72 1 = 1)
    (h4 : (machoSectionsT file (u32le ((readSlice file pos 72).drop 64))
        (pos + 72)).1 = .found o) :
    machoLoop file (n + 1) pos = o := by
  unfold machoLoop
  simp [machoLoopT, h1, h2, h3, h4]

/-! ## Claims -/

/-- C1: the claim says extraction of a `.buildinfo` (resp. `__buildinfo`)
section with content B always succeeds and writes exactly B, including an
empty section.  The code disagrees: `fread(data, size, 1, f)` returns 0 when
`size == 0`, so both extractors report a read failure and exit 1 on a valid
input whose target section is empty; on the same images with a 4-byte
section both succeed.  This theorem evaluates the embedded extractors at the
failing inputs and at the non-empty variants. -/
theorem c1_zero_size_section_read_fails :
    elfExtract elfZero = .err "Failed to read .buildinfo section" ∧
    machoExtract machoZero = .err "Failed to read __buildinfo section" ∧
    elfExtract goodElf = .ok [0x61, 0x62, 0x63, 0x64] ∧
    machoExtract goodMacho = .ok [0x61, 0x62, 0x63, 0x64] := by
  refine ⟨by decide, by decide, by decide, by decide⟩

/-- C2: the claim says an ELF header with `e_shstrndx ≥ e_shnum` fails with
`CorruptData` before any string-table read.  The code has no such check: it
evaluates `&sections[ehdr.e_shstrndx]` unconditionally, an out-of-bounds
read of the malloc block (undefined behaviour).  This theorem evaluates the
embedded extractor at a valid-header image with `e_shnum = 1`,
`e_shstrndx = 1`: the run reaches the out-of-bounds access, not a
`CorruptData` error. -/
theorem c2_shstrndx_unchecked :
    elfExtract elfBadStrndx =
      .ub "e_shstrndx out of bounds of section-header table" := by decide

/-- C3: the claim says a section-header name offset at or beyond the
string-table length fails with `CorruptData`.  The code has no such check:
`strtab + sections[i].sh_name` is dereferenced by `strcmp` unconditionally,
an out-of-bounds read (undefined behaviour).  This theorem evaluates the
embedded extractor at an image whose second header carries name offset 100
into a 1-byte string table: the run reaches the out-of-bounds access. -/
theorem c3_name_offset_unchecked :
    elfExtract elfBadName =
      .ub "section name offset out of string-table bounds" := by decide

/-- C4: each compiled build dispatches exactly one container format.  An
Apple build never reaches the ELF branch and its ELF extractor fails
unconditionally; any other build never reaches the Mach-O branch and its
Mach-O extractor fails unconditionally.  A well-formed image of the other
format (each shown to extract fine on its own platform) is reported as an
unknown format. -/
theorem c4_single_format_dispatch :
    (∀ file, mainDispatch true file ≠ .elfBranch) ∧
    (∀ file, mainDispatch false file ≠ .machoBranch) ∧
    (∀ file, extractElfBuildinfo true file =
      .err "ELF format not supported on this platform") ∧
    (∀ file, extractMachoBuildinfo false file =
      .err "Mach-O format not supported on this platform") ∧
    mainRun false goodElf = .ok [0x61, 0x62, 0x63, 0x64] ∧
    mainRun true goodMacho = .ok [0x61, 0x62, 0x63, 0x64] ∧
    mainRun true goodElf = .err "Unknown or unsupported binary format" ∧
    mainRun false goodMacho = .err "Unknown or unsupported binary format" := by
  refine ⟨?_, ?_, fun _ => rfl, fun _ => rfl, by decide, by decide, by decide, by decide⟩
  · intro file
    simp only [mainDispatch]
    split
    · simp
    · split
      · split <;> simp_all
      · split <;> simp_all
  · intro file
    simp only [mainDispatch]
    split
    · simp
    · split
      · split <;> simp_all
      · split <;> simp_all

/-- C5 counterexample: the claim says a reverse-endian Mach-O input yields
the same section bytes as the equivalent native-endian input.
`machoSwapped` is `goodMacho` with every multi-byte field byte-swapped (its
big-endian encoding): the native image extracts "abcd", the swapped image
fails, because `ncmds`, `cmd` and `cmdsize` are read without swapping. -/
theorem c5_swapped_input_differs :
    machoExtract goodMacho = .ok [0x61, 0x62, 0x63, 0x64] ∧
    machoExtract machoSwapped = .err "Failed to read load command" ∧
    machoExtract machoSwapped ≠ machoExtract goodMacho := by
  refine ⟨by decide, by decide, by decide⟩

/-- C5 amended: when the header magic matches the reverse-endian value
`MH_CIGAM_64`, the file is accepted but NO byte swapping happens: the walk
proceeds exactly as for a native file, with `ncmds` (and, inside
`machoLoopT`, every later field) interpreted in native little-endian order. -/
theorem c5_no_byte_swap (file : List Nat)
    (h1 : freadCount file 0 32 1 = 1)
    (h2 : u32le (readSlice file 0 32) = MH_CIGAM_64) :
    machoExtract file =
      machoLoop file (u32le ((readSlice file 0 32).drop 16)) 32 := by
  simp only [machoExtract]
  rw [if_neg (by simp [h1])]
  exact if_neg (fun hc => hc.2 h2)

/-- C5 witness: the amended statement applied to the concrete byte-swapped
image. -/
theorem c5_no_byte_swap_witness :
    machoExtract machoSwapped =
      machoLoop machoSwapped (u32le ((readSlice machoSwapped 0 32).drop 16)) 32 :=
  c5_no_byte_swap machoSwapped (by decide) (by decide)

/-- C6: comparing a section record against "__buildinfo" inspects only the
first 12 bytes of the record (well inside the 16-byte `sectname` field), and
a name field whose 16 bytes are all non-NUL never matches, because a match
forces a NUL at byte 11. -/
theorem c6_sectname_bounded_compare :
    (∀ r1 r2 : List Nat, r1.take 12 = r2.take 12 →
        machoNameMatches r1 = machoNameMatches r2) ∧
    (∀ r : List Nat, (∀ b ∈ r.take 16, b % 256 ≠ 0) →
        machoNameMatches r = false) := by
  constructor
  · intro r1 r2 htake
    unfold machoNameMatches
    rw [cstrEqLit_congr litMacho r1 r2 0 ?_]
    intro k hk
    have hk12 : k < 12 := by
      simp only [litMacho, List.length_cons] at hk
      simp at hk
      omega
    simp only [Nat.zero_add]
    calc r1[k]? = (r1.take 12)[k]? := by rw [List.getElem?_take, if_pos hk12]
      _ = (r2.take 12)[k]? := by rw [htake]
      _ = r2[k]? := by rw [List.getElem?_take, if_pos hk12]
  · intro r hr
    unfold machoNameMatches
    cases hc : cstrEqLit r 0 litMacho with
    | error e => rfl
    | ok b =>
      cases b with
      | false => rfl
      | true =>
        obtain ⟨a, ha, ha0⟩ := cstrEqLit_ok_true litMacho r 0 hc
        have h11 : r[(11 : Nat)]? = some a := by
          simpa [litMacho] using ha
        have hmem : a ∈ r.take 16 := by
          apply List.getElem?_mem (n := 11)
          rw [List.getElem?_take, if_pos (by norm_num)]
          exact h11
        exact absurd ha0 (hr a hmem)

/-- C6 witness: the two parts applied at concrete records: two records that
agree on their first 12 bytes but differ at byte 12, and a record whose
16-byte name field is entirely non-NUL. -/
theorem c6_sectname_bounded_compare_witness :
    machoNameMatches (litMacho ++ [0, 7, 7, 7, 7]) =
      machoNameMatches (litMacho ++ [0, 9, 9, 9, 9]) ∧
    machoNameMatches (List.replicate 16 1) = false :=
  ⟨c6_sectname_bounded_compare.1 (litMacho ++ [0, 7, 7, 7, 7])
      (litMacho ++ [0, 9, 9, 9, 9]) (by decide),
   c6_sectname_bounded_compare.2 (List.replicate 16 1) (by decide)⟩

/-- C7: both scans return the first match in scan order.  For ELF: if no
header before `s` matches and `s` matches, the scan returns the payload of
`s`, whatever follows.  For Mach-O: the inner loop returns the payload of
the first matching record regardless of how many records follow; and when
the current segment command finds a match, the walk returns it at once,
without examining the remaining load commands (its result does not depend on
the remaining command count `n`). -/
theorem c7_first_match_in_order :
    (∀ (file strtab : List Nat) (pre : List Shdr) (s : Shdr) (rest : List Shdr),
      (∀ p ∈ pre, cstrEqLit strtab p.name litElf = .ok false) →
      cstrEqLit strtab s.name litElf = .ok true →
      elfScan file strtab (pre ++ s :: rest) =
        if freadCount file s.offset s.size 1 ≠ 1 then
          Outcome.err "Failed to read .buildinfo section"
        else Outcome.ok (cstr (readSlice file s.offset s.size))) ∧
    (∀ (file : List Nat) (k n spos : Nat), k < n →
      (∀ i < k, freadCount file (spos + 80 * i) 80 1 = 1 ∧
          machoNameMatches (readSlice file (spos + 80 * i) 80) = false) →
      freadCount file (spos + 80 * k) 80 1 = 1 →
      machoNameMatches (readSlice file (spos + 80 * k) 80) = true →
      (machoSectionsT file n spos).1 =
        .found (machoPayload file (readSlice file (spos + 80 * k) 80))) ∧
    (∀ (file : List Nat) (n pos : Nat) (o : Outcome),
      freadCount file pos 8 1 = 1 →
      u32le (readSlice file pos 8) = 0x19 →
      freadCount file pos 72 1 = 1 →
      (machoSectionsT file (u32le ((readSlice file pos 72).drop 64))
          (pos + 72)).1 = .found o →
      machoLoop file (n + 1) pos = o) :=
  ⟨elfScan_first_match, machoSectionsT_first_match, machoLoopT_found⟩

/-- C7 witness: on `dupElf` (two `.buildinfo` headers) the scan returns the
FIRST payload "abcd"; on `dupMacho` (two segments with a `__buildinfo`
section each) the inner loop finds the first record and the walk returns
"abcd" immediately even though a second command follows. -/
theorem c7_first_match_in_order_witness :
    elfScan dupElf (readSlice dupElf 256 12)
        ([⟨0, 256, 12⟩] ++ ⟨1, 268, 4⟩ :: [⟨1, 272, 4⟩]) = .ok [0x61, 0x62, 0x63, 0x64] ∧
    (machoSectionsT dupMacho 1 104).1 =
      .found (machoPayload dupMacho (readSlice dupMacho (104 + 80 * 0) 80)) ∧
    machoLoop dupMacho (1 + 1) 32 = .ok [0x61, 0x62, 0x63, 0x64] :=
  ⟨(c7_first_match_in_order.1 dupElf (readSlice dupElf 256 12)
      [⟨0, 256, 12⟩] ⟨1, 268, 4⟩ [⟨1, 272, 4⟩]
      (by decide) (by decide)).trans (by decide),
   c7_first_match_in_order.2.1 dupMacho 0 1 104 (by decide)
      (fun i hi => absurd hi (by omega)) (by decide) (by decide),
   c7_first_match_in_order.2.2 dupMacho 1 32 (.ok [0x61, 0x62, 0x63, 0x64])
      (by decide) (by decide) (by decide) (by decide)⟩

/-- C8: a readable 4-byte magic matching neither the ELF magic nor either
64-bit Mach-O magic takes the unknown-format branch on both builds: the
diagnostic is printed, the exit status is 1, and neither extractor is
invoked (the dispatch result is `unknownBranch`, the only branch of
`mainRun` calling no extractor). -/
theorem c8_unknown_magic (apple : Bool) (file : List Nat)
    (hread : freadCount file 0 4 1 = 1)
    (h1 : u32le (readSlice file 0 4) ≠ ELF_MAGIC_LE)
    (h2 : u32le (readSlice file 0 4) ≠ MH_MAGIC_64)
    (h3 : u32le (readSlice file 0 4) ≠ MH_CIGAM_64) :
    mainDispatch apple file = .unknownBranch ∧
    mainRun apple file = .err "Unknown or unsupported binary format" ∧
    exitCode (mainRun apple file) = some 1 := by
  have hd : mainDispatch apple file = .unknownBranch := by
    simp only [mainDispatch]
    rw [if_neg (by simp [hread])]
    cases apple <;> simp [h1, h2, h3]
  exact ⟨hd, by simp [mainRun, hd], by simp [mainRun, hd, exitCode]⟩

/-- C8 witness: the all-zero 4-byte file on both builds. -/
theorem c8_unknown_magic_witness :
    mainDispatch true [0, 0, 0, 0] = .unknownBranch ∧
    mainDispatch false [0, 0, 0, 0] = .unknownBranch ∧
    mainRun false [0, 0, 0, 0] = .err "Unknown or unsupported binary format" ∧
    exitCode (mainRun true [0, 0, 0, 0]) = some 1 :=
  ⟨(c8_unknown_magic true [0, 0, 0, 0] (by decide) (by decide) (by decide) (by decide)).1,
   (c8_unknown_magic false [0, 0, 0, 0] (by decide) (by decide) (by decide) (by decide)).1,
   (c8_unknown_magic false [0, 0, 0, 0] (by decide) (by decide) (by decide) (by decide)).2.1,
   (c8_unknown_magic true [0, 0, 0, 0] (by decide) (by decide) (by decide) (by decide)).2.2⟩

/-- C9: the load-command walk is bounded: it executes at most `ncmds`
iterations and performs at most `ncmds * (2 ^ 32 + 2)` reads (each iteration
reads one load command, at most one segment command, fewer than `2 ^ 32`
section records and at most one payload).  In particular, on the concrete
image whose only load command declares `cmdsize == 0` - the cursor never
advances - the extractor still terminates with the not-found diagnostic
after its 5 declared commands. -/
theorem c9_bounded_walk :
    (∀ (file : List Nat) (n pos : Nat), machoLoopSteps file n pos ≤ n) ∧
    (∀ (file : List Nat) (n pos : Nat),
      machoLoopReads file n pos ≤ n * (2 ^ 32 + 2)) ∧
    machoExtract machoCmdZero = .err "No __buildinfo section found in binary" :=
  ⟨machoLoopT_steps_le, machoLoopT_reads_le, by decide⟩

/-- C10: extraction is deterministic: the embedded program is a pure
function of the file bytes, so two runs on the same unmodified file give the
same stdout bytes and the same exit status. -/
theorem c10_deterministic : ∀ (apple : Bool) (file : List Nat),
    (runTwice apple file).1 = (runTwice apple file).2 ∧
    exitCode (runTwice apple file).1 = exitCode (runTwice apple file).2 :=
  fun _ _ => ⟨rfl, rfl⟩

end BuildInfo
